import Mathlib

/-!
Verification of the rate-limited batch mutation engine.

This file gives a shallow embedding of the Python sources under `src/` and
proves properties of the embedded operations.  Machine floats in the source
(`time.time()` stamps, RU charges, backoff seconds) are modelled as rationals;
`time.sleep(d)` is modelled as advancing the current clock by `d`; the remote
store is modelled as an environment function giving each `client.submit` call
its outcome (a result list with an optional request charge, or an error whose
message string is inspected exactly the way the Python code inspects it).
Unbounded `while True` loops are given explicit fuel; running out of fuel is
reported as a distinguished `outOfFuel` ending that models divergence (in
particular nothing sequenced after the loop is reached).
-/

namespace GraphSync

/-- Character-list substring test, the semantics of Python's `pat in msg`. -/
def subSeq : List Char → List Char → Bool
  | pat, [] => pat.isEmpty
  | pat, s@(_ :: t) => pat.isPrefixOf s || subSeq pat t

/-- String substring test: `containsSub msg pat` is Python's `pat in msg`. -/
def containsSub (msg pat : String) : Bool := subSeq pat.toList msg.toList

/-- Transient classification used by `delete_v5.py`, `load_existing_vertices_v3.py`
and `loader_and_uploader_250714.py`: `'429' in msg or 'GraphTimeoutException' in msg`. -/
def isThrottleOrTimeout (msg : String) : Bool :=
  containsSub msg "429" || containsSub msg "GraphTimeoutException"

/-- Transient classification used by `load_existing_continuation.load_existing_vertices`
(lines 60-67): only `'GraphTimeoutException' in msg`. -/
def isTimeoutSignal (msg : String) : Bool := containsSub msg "GraphTimeoutException"

/-- Transient classification used by `parallel_delete_2._drop_batch` (lines 66-75):
`'429' in msg or 'TooManyRequests' in msg`. -/
def isRateLimitSignal (msg : String) : Bool :=
  containsSub msg "429" || containsSub msg "TooManyRequests"

/-- Budget Tracker state, from `gremlin_v3.py` lines 32-47 (`gremlin_v1.py` adds two
statistics counters that do not influence control flow and are omitted). -/
structure RUThrottler where
  ruLimit : ℚ
  windowStart : ℚ
  ruConsumed : ℚ
deriving DecidableEq

/-- Embeds `RUThrottler.throttle` from `gremlin_v3.py` lines 38-47.  The call happens at
wall-clock time `now`; the returned rational is the wall-clock time at which the
call returns (it exceeds `now` exactly when the call slept).  The source first
adds `ru` to `ru_consumed`, then compares the updated value against the limit;
on overflow inside the window it sleeps `1.0 - elapsed` seconds and then resets
`window_start` to the post-sleep clock and `ru_consumed` to zero. -/
def RUThrottler.throttle (t : RUThrottler) (now ru : ℚ) : RUThrottler × ℚ :=
  if now - t.windowStart < 1 ∧ t.ruLimit ≤ t.ruConsumed + ru then
    ({ t with windowStart := now + (1 - (now - t.windowStart)), ruConsumed := 0 },
      now + (1 - (now - t.windowStart)))
  else if 1 ≤ now - t.windowStart then
    ({ t with windowStart := now, ruConsumed := 0 }, now)
  else
    ({ t with ruConsumed := t.ruConsumed + ru }, now)

/-- A freshly constructed throttler at wall-clock time `t0` (`__init__`). -/
def RUThrottler.init (limit t0 : ℚ) : RUThrottler := ⟨limit, t0, 0⟩

/-- Run a sequence of `throttle` calls.  Each event `(d, ru)` is a call issued `d`
seconds after the previous call returned, charging `ru` cost units. -/
def runThrottle (s : RUThrottler × ℚ) : List (ℚ × ℚ) → RUThrottler × ℚ
  | [] => s
  | (d, ru) :: evs => runThrottle ((s.1).throttle (s.2 + d) ru) evs

/-- Outcome of one `client.submit(...).all().result()` round trip: a result list
together with the optional `x-ms-total-request-charge` status attribute, or a
raised error carrying its message string. -/
inductive Resp where
  | ok (ids : List String) (charge : Option ℚ)
  | err (msg : String)
deriving DecidableEq

/-- Result of `loader_and_uploader_250714._upload_task` (lines 181-205): whether the
task returned True, how many submits it made, the backoff sleeps it performed in
order, and the shared throttler state it left behind. -/
structure TaskOut where
  success : Bool
  submits : ℕ
  sleeps : List ℚ
  thr : RUThrottler
  now : ℚ
deriving DecidableEq

/-- Retry loop body of `_upload_task`: `for attempt in range(max_retries)`; a submit
that succeeds throttles and returns True; a transient error (429 or timeout) sleeps
`backoff_base * 2 ** attempt` and retries; any other error returns False at once;
falling off the loop returns False.  `env attempt` is the outcome of the submit
made on that attempt. -/
def uploadTaskGo (env : ℕ → Resp) (base : ℚ) : ℕ → ℕ → RUThrottler → ℚ → TaskOut
  | _, 0, t, now => ⟨false, 0, [], t, now⟩
  | attempt, rem + 1, t, now =>
    match env attempt with
    | .ok _ charge =>
      let p := t.throttle now (charge.getD 10)
      ⟨true, 1, [], p.1, p.2⟩
    | .err msg =>
      if isThrottleOrTimeout msg then
        let r := uploadTaskGo env base (attempt + 1) rem t (now + base * 2 ^ attempt)
        ⟨r.success, r.submits + 1, base * 2 ^ attempt :: r.sleeps, r.thr, r.now⟩
      else ⟨false, 1, [], t, now⟩

/-- Embeds `loader_and_uploader_250714._upload_task`, starting at attempt 0. -/
def uploadTask (env : ℕ → Resp) (maxRetries : ℕ) (base : ℚ) (t : RUThrottler) (now : ℚ) :
    TaskOut :=
  uploadTaskGo env base 0 maxRetries t now

/-- State threaded through `load_existing_continuation.load_existing_vertices`:
the shared throttler, the clock, the number of submits made so far, and
`current_batch`, the adaptively shrinking server-side page size. -/
structure ContSt where
  thr : RUThrottler
  now : ℚ
  calls : ℕ
  currentBatch : ℕ
deriving DecidableEq

/-- Outcome of the page-fetch retry loop of `load_existing_vertices`. -/
inductive ContFetchOut where
  | got (ids : List String) (st : ContSt)
  | exhausted (st : ContSt)
  | fatal (msg : String) (st : ContSt)
deriving DecidableEq

/-- Page-fetch retry loop of `load_existing_continuation.load_existing_vertices`
(lines 46-67).  Only a `GraphTimeoutException` message is transient: it halves
`current_batch` (floored at 100) and sleeps `backoff_base * 2 ** attempt` before
retrying; every other error is re-raised immediately (`fatal`).  Exhausting
`max_retries` hits the loop's `else` clause and aborts the walk (`exhausted`).
`env n` is the outcome of the n-th submit this state has made overall. -/
def contFetchRetry (env : ℕ → Resp) (base : ℚ) : ℕ → ℕ → ContSt → ContFetchOut
  | _, 0, st => .exhausted st
  | attempt, rem + 1, st =>
    match env st.calls with
    | .ok ids charge =>
      let st1 : ContSt := { st with calls := st.calls + 1 }
      let p := st1.thr.throttle st1.now (charge.getD 10)
      .got ids { st1 with thr := p.1, now := p.2 }
    | .err msg =>
      if isTimeoutSignal msg then
        contFetchRetry env base (attempt + 1) rem
          { st with calls := st.calls + 1,
                    currentBatch := max 100 (st.currentBatch / 2),
                    now := st.now + base * 2 ^ attempt }
      else .fatal msg { st with calls := st.calls + 1 }

/-- The state carried by a `ContFetchOut`, whatever the outcome. -/
def ContFetchOut.stOf : ContFetchOut → ContSt
  | .got _ s => s
  | .exhausted s => s
  | .fatal _ s => s

/-- The fetched ids when the outcome is a successful page, else `none`. -/
def ContFetchOut.gotIds : ContFetchOut → Option (List String)
  | .got ids _ => some ids
  | _ => none

/-- State threaded through `parallel_delete_2._drop_batch`. -/
structure DropSt where
  thr : RUThrottler
  now : ℚ
  calls : ℕ
deriving DecidableEq

/-- Embeds the `parallel_delete_2._drop_batch` retry loop (lines 50-85), returning the count
it contributes to the shared `deleted` total.  A successful drop throttles and
returns `len(batch_ids)`; a 429/TooManyRequests error sleeps
`backoff_base * 2 ** attempt` and retries; any other error prints and breaks,
leaving the count at 0 (no exception escapes); exhausting the retries likewise
leaves the count at 0. -/
def dropBatch (env : ℕ → Resp) (batchIds : List String) (base : ℚ) :
    ℕ → ℕ → DropSt → ℕ × DropSt
  | _, 0, st => (0, st)
  | attempt, rem + 1, st =>
    match env st.calls with
    | .ok _ charge =>
      let st1 : DropSt := { st with calls := st.calls + 1 }
      let p := st1.thr.throttle st1.now (charge.getD 10)
      (batchIds.length, { st1 with thr := p.1, now := p.2 })
    | .err msg =>
      if isRateLimitSignal msg then
        dropBatch env batchIds base (attempt + 1) rem
          { st with calls := st.calls + 1, now := st.now + base * 2 ^ attempt }
      else (0, { st with calls := st.calls + 1 })

/-- The four intents a `delete_v5.py` submit can carry. -/
inductive Op where
  | edgeFetch | edgeDrop | vertexFetch | vertexDrop
deriving DecidableEq

def Op.isEdge : Op → Bool
  | .edgeFetch => true
  | .edgeDrop => true
  | _ => false

def Op.isVertex : Op → Bool
  | .vertexFetch => true
  | .vertexDrop => true
  | _ => false

/-- State threaded through `delete_v5.py`: the shared throttler, the clock, the
submit counter indexing the environment, the trace of submitted operations in
dispatch order, and how many drop submits actually succeeded. -/
structure RunSt where
  thr : RUThrottler
  now : ℚ
  calls : ℕ
  trace : List Op
  dropOks : ℕ
deriving DecidableEq

/-- Fresh run state: fresh throttler, clock `t0`, nothing dispatched yet. -/
def mkRunSt (limit t0 : ℚ) : RunSt := ⟨RUThrottler.init limit t0, t0, 0, [], 0⟩

/-- Record one `client.submit` of intent `op` and look up its outcome. -/
def submitOp (env : ℕ → Resp) (op : Op) (st : RunSt) : Resp × RunSt :=
  (env st.calls, { st with calls := st.calls + 1, trace := st.trace ++ [op] })

/-- Outcome of a `delete_v5` id-page fetch retry loop. -/
inductive FetchOut where
  | got (ids : List String) (st : RunSt)
  | exhausted (st : RunSt)
  | fatal (msg : String) (st : RunSt)

def FetchOut.st : FetchOut → RunSt
  | .got _ s => s
  | .exhausted s => s
  | .fatal _ s => s

/-- Outcome of a `delete_v5` drop retry loop. -/
inductive DropOut where
  | done (st : RunSt)
  | fatal (msg : String) (st : RunSt)

def DropOut.st : DropOut → RunSt
  | .done s => s
  | .fatal _ s => s

/-- The `delete_v5.py` fetch-with-retry pattern (edges: lines 48-66; vertices:
lines 138-155): on success throttle with the reported charge (default 10.0) and
return the ids; on a 429/timeout error sleep `backoff_base * 2 ** attempt` and
retry; on any other error re-raise; the loop's `else` clause (`exhausted`)
aborts the phase. -/
def fetchRetry5 (env : ℕ → Resp) (op : Op) (base : ℚ) : ℕ → ℕ → RunSt → FetchOut
  | _, 0, st => .exhausted st
  | attempt, rem + 1, st =>
    let pr := submitOp env op st
    match pr.1 with
    | .ok ids charge =>
      let p := pr.2.thr.throttle pr.2.now (charge.getD 10)
      .got ids { pr.2 with thr := p.1, now := p.2 }
    | .err msg =>
      if isThrottleOrTimeout msg then
        fetchRetry5 env op base (attempt + 1) rem { pr.2 with now := pr.2.now + base * 2 ^ attempt }
      else .fatal msg pr.2

/-- The `delete_v5.py` drop-with-retry pattern (edges: lines 74-88; vertices:
lines 163-177).  NOTE: unlike the fetch loop just above it, this `for` loop has
no `else` clause, so exhausting the retries falls through silently and the
caller still counts the batch. -/
def dropRetry5 (env : ℕ → Resp) (op : Op) (base : ℚ) : ℕ → ℕ → RunSt → DropOut
  | _, 0, st => .done st
  | attempt, rem + 1, st =>
    let pr := submitOp env op st
    match pr.1 with
    | .ok _ charge =>
      let p := pr.2.thr.throttle pr.2.now (charge.getD 10)
      .done { pr.2 with thr := p.1, now := p.2, dropOks := pr.2.dropOks + 1 }
    | .err msg =>
      if isThrottleOrTimeout msg then
        dropRetry5 env op base (attempt + 1) rem { pr.2 with now := pr.2.now + base * 2 ^ attempt }
      else .fatal msg pr.2

/-- How a `delete_v5` phase (one `while True` loop) ended. -/
inductive Ending where
  | emptyPage
  | fetchExhausted
  | fatalErr (msg : String)
  | outOfFuel
deriving DecidableEq

/-- Result of one `delete_v5` phase: the `deleted` counter it returned, the final
shared state, and how the loop ended. -/
structure PhaseOut where
  deleted : ℕ
  st : RunSt
  ending : Ending

/-- One `delete_v5` `while True` loop: fetch a page of ids with retry (abort the
phase on exhaustion, re-raise on fatal), stop on an empty page, otherwise drop
the page with retry (re-raise on fatal, fall through on exhaustion) and add the
page length to `deleted` regardless. -/
def deleteLoop5 (env : ℕ → Resp) (fOp dOp : Op) (maxRetries : ℕ) (base : ℚ) :
    ℕ → ℕ → RunSt → PhaseOut
  | 0, deleted, st => ⟨deleted, st, .outOfFuel⟩
  | fuel + 1, deleted, st =>
    match fetchRetry5 env fOp base 0 maxRetries st with
    | .exhausted st1 => ⟨deleted, st1, .fetchExhausted⟩
    | .fatal msg st1 => ⟨deleted, st1, .fatalErr msg⟩
    | .got ids st1 =>
      if ids.isEmpty then ⟨deleted, st1, .emptyPage⟩
      else
        match dropRetry5 env dOp base 0 maxRetries st1 with
        | .fatal msg st2 => ⟨deleted, st2, .fatalErr msg⟩
        | .done st2 =>
          deleteLoop5 env fOp dOp maxRetries base fuel (deleted + ids.length) st2

/-- Embeds `delete_v5.delete_all_edges_in_batches` (lines 18-100). -/
def delete_all_edges_in_batches (env : ℕ → Resp) (maxRetries : ℕ) (base : ℚ)
    (fuel : ℕ) (st : RunSt) : PhaseOut :=
  deleteLoop5 env .edgeFetch .edgeDrop maxRetries base fuel 0 st

/-- Embeds `delete_v5.delete_all_vertices_in_batches` (lines 103-189): it first runs the
full edge-deletion phase (line 119) and only then starts the vertex loop.  A
fatal error in the edge phase propagates (the vertex loop is never entered), and
an edge loop that never terminates (`outOfFuel`) never reaches the vertex loop;
the pair returned is (how the edge phase ended, the vertex phase result). -/
def delete_all_vertices_in_batches (env : ℕ → Resp) (maxRetries : ℕ) (base : ℚ)
    (fuel : ℕ) (st : RunSt) : Ending × PhaseOut :=
  let e := delete_all_edges_in_batches env maxRetries base fuel st
  match e.ending with
  | .emptyPage =>
    (.emptyPage, deleteLoop5 env .vertexFetch .vertexDrop maxRetries base fuel 0 e.st)
  | .fetchExhausted =>
    (.fetchExhausted, deleteLoop5 env .vertexFetch .vertexDrop maxRetries base fuel 0 e.st)
  | bad => (bad, ⟨0, e.st, bad⟩)

/-- Terminal-signal test of the `gremlin_v3.py` batched deletes (lines 282 and
310): `"NoSuchElementException" in str(e) or "script evaluation error" in str(e)`
is read as no-more-elements; any other error message is printed and the loop
breaks anyway. -/
def isNoMoreElements (msg : String) : Bool :=
  containsSub msg "NoSuchElementException" || containsSub msg "script evaluation error"

/-- How a `gremlin_v3` batched-delete loop ended: on the no-more-elements
signal, on any other error (printed and swallowed — the loop still just
breaks), or never (fuel exhausted, modelling divergence). -/
inductive BatchedEnd where
  | noMore
  | swallowed (msg : String)
  | outOfFuel
deriving DecidableEq

/-- Result of one `gremlin_v3` batched-delete loop. -/
structure BatchedOut where
  totalDeleted : ℕ
  st : RunSt
  ending : BatchedEnd

/-- The shared `while True` loop of `gremlin_v3.delete_all_vertices_batched` /
`delete_all_edges_batched` (lines 265-316): submit `limit(batchSize).drop()`
with no retries, throttle a fixed charge of 10 on success and add `batchSize`
to the running total; ANY exception ends the loop — a no-more-elements message
is the normal terminal signal, every other error is printed and swallowed
(`print` then `break`), and in both cases the function returns normally. -/
def deleteAllBatched (env : ℕ → Resp) (op : Op) (batchSize : ℕ) :
    ℕ → ℕ → RunSt → BatchedOut
  | 0, total, st => ⟨total, st, .outOfFuel⟩
  | fuel + 1, total, st =>
    let pr := submitOp env op st
    match pr.1 with
    | .ok _ _ =>
      let p := pr.2.thr.throttle pr.2.now 10
      deleteAllBatched env op batchSize fuel (total + batchSize)
        { pr.2 with thr := p.1, now := p.2 }
    | .err msg =>
      if isNoMoreElements msg then ⟨total, pr.2, .noMore⟩
      else ⟨total, pr.2, .swallowed msg⟩

/-- Embeds `gremlin_v3.delete_all_edges_batched` (lines 293-316). -/
def delete_all_edges_batched (env : ℕ → Resp) (batchSize fuel : ℕ) (st : RunSt) :
    BatchedOut :=
  deleteAllBatched env .edgeDrop batchSize fuel 0 st

/-- Embeds `gremlin_v3.delete_all_vertices_batched` (lines 265-288). -/
def delete_all_vertices_batched (env : ℕ → Resp) (batchSize fuel : ℕ) (st : RunSt) :
    BatchedOut :=
  deleteAllBatched env .vertexDrop batchSize fuel 0 st

/-- Embeds `gremlin_v3.clear_graph` (lines 321-325): edges then vertices with the
default `batch_size = 1000`, run unconditionally in sequence — both loops
swallow their errors, so the vertex loop runs however the edge loop ended; the
only way vertex deletion is not reached is an edge loop that never returns
(`outOfFuel`). -/
def clear_graph (env : ℕ → Resp) (fuel : ℕ) (st : RunSt) : BatchedOut × BatchedOut :=
  let e := delete_all_edges_batched env 1000 fuel st
  match e.ending with
  | .outOfFuel => (e, ⟨0, e.st, .outOfFuel⟩)
  | .noMore => (e, delete_all_vertices_batched env 1000 fuel e.st)
  | .swallowed _ => (e, delete_all_vertices_batched env 1000 fuel e.st)

/-- Environment for the C3 counterexample on `clear_graph`: the single edge-drop
submit raises an error that is neither a no-more-elements signal nor anything
retryable (that loop has no retries at all); the first vertex-drop submit then
succeeds and the second reports no more vertices. -/
def envSwallow : ℕ → Resp := fun n =>
  if n = 0 then .err "Connection reset by peer"
  else if n = 1 then .ok [] none
  else .err "NoSuchElementException: no more elements"

/-- One keyset page, from the queries built in `load_existing_vertices_v3.py`
lines 37-51: the remote store holds `store` (its sort keys, in ascending order);
page 1 is `order().by(graph_id).limit(batchSize)` and later pages add
`has('graph_id', P.gt(lastKey))`.  Sort keys are modelled as naturals. -/
def keysetPage (store : List ℕ) (last : Option ℕ) (batchSize : ℕ) : List ℕ :=
  match last with
  | none => store.take batchSize
  | some k => (store.filter fun x => k < x).take batchSize

/-- State threaded through the keyset walk. -/
structure KeysetSt where
  thr : RUThrottler
  now : ℚ
  calls : ℕ
deriving DecidableEq

/-- Outcome of the keyset page-fetch retry loop. -/
inductive KFetchOut where
  | got (ids : List ℕ) (st : KeysetSt)
  | exhausted (st : KeysetSt)
  | fatal (msg : String) (st : KeysetSt)

/-- Fetch retry loop of `load_existing_vertices_by_keyset` (lines 53-73): `errs n`
optionally injects an error into the n-th submit; a successful submit returns the
keyset page and throttles (charge modelled at the 10.0 default); 429/timeout
errors back off and retry; others re-raise; exhaustion aborts the walk. -/
def keysetFetchRetry (errs : ℕ → Option String) (store : List ℕ) (batchSize : ℕ)
    (last : Option ℕ) (base : ℚ) : ℕ → ℕ → KeysetSt → KFetchOut
  | _, 0, st => .exhausted st
  | attempt, rem + 1, st =>
    match errs st.calls with
    | none =>
      let st1 : KeysetSt := { st with calls := st.calls + 1 }
      let p := st1.thr.throttle st1.now 10
      .got (keysetPage store last batchSize) { st1 with thr := p.1, now := p.2 }
    | some msg =>
      if isThrottleOrTimeout msg then
        keysetFetchRetry errs store batchSize last base (attempt + 1) rem
          { st with calls := st.calls + 1, now := st.now + base * 2 ^ attempt }
      else .fatal msg { st with calls := st.calls + 1 }

/-- Result of the keyset walk: the fetched non-empty pages in order, the final
`last_graph_id`, how many times `last_graph_id` was assigned (line 82), and how
the walk ended. -/
structure KeysetOut where
  pages : List (List ℕ)
  lastKey : Option ℕ
  lastUpdates : ℕ
  ending : Ending
  st : KeysetSt

/-- The `while True` walk of `load_existing_vertices_by_keyset` (lines 35-91):
fetch a page with retry; an empty page terminates the walk; a non-empty page is
recorded, `last_graph_id` is set to its last element, and the walk continues. -/
def keysetLoop (errs : ℕ → Option String) (store : List ℕ) (batchSize maxRetries : ℕ)
    (base : ℚ) : ℕ → Option ℕ → List (List ℕ) → ℕ → KeysetSt → KeysetOut
  | 0, last, pages, ups, st => ⟨pages, last, ups, .outOfFuel, st⟩
  | fuel + 1, last, pages, ups, st =>
    match keysetFetchRetry errs store batchSize last base 0 maxRetries st with
    | .exhausted st1 => ⟨pages, last, ups, .fetchExhausted, st1⟩
    | .fatal msg st1 => ⟨pages, last, ups, .fatalErr msg, st1⟩
    | .got ids st1 =>
      if ids.isEmpty then ⟨pages, last, ups, .emptyPage, st1⟩
      else
        keysetLoop errs store batchSize maxRetries base fuel
          (some (ids.getLast?.getD 0)) (pages ++ [ids]) (ups + 1) st1

/-- Embeds `load_existing_vertices_v3.load_existing_vertices_by_keyset`. -/
def load_existing_vertices_by_keyset (errs : ℕ → Option String) (store : List ℕ)
    (batchSize maxRetries : ℕ) (base : ℚ) (fuel : ℕ) (st : KeysetSt) : KeysetOut :=
  keysetLoop errs store batchSize maxRetries base fuel none [] 0 st

/-- Embeds `chunked` from `delete_v1.py` lines 7-14: successive `size`-sized slices; with
`size = 0` the first `islice` is empty and the generator yields nothing at all. -/
def chunked (size : ℕ) : List String → List (List String)
  | [] => []
  | a :: l =>
    if _h : size = 0 then []
    else (a :: l).take size :: chunked size ((a :: l).drop size)
termination_by l => l.length
decreasing_by
  simp only [List.length_drop, List.length_cons]
  omega

/-- Result of a known-id batch delete run. -/
structure BatchDelOut where
  deleted : ℕ
  thr : RUThrottler
  now : ℚ
  calls : ℕ
deriving DecidableEq

/-- The `for batch in chunked(ids, batch_size)` loop shared by
`delete_v1.delete_vertices_in_batches` and `delete_v1.delete_edges_in_batches`:
each batch is submitted as one combined drop query with no `try` around it, so
any error propagates out; on success the reported charge (default 10.0) is fed
to the throttler and `deleted += len(batch)`. -/
def deleteKnownLoop (env : ℕ → Resp) :
    List (List String) → ℕ → RUThrottler → ℚ → ℕ → Except String BatchDelOut
  | [], deleted, t, now, calls => .ok ⟨deleted, t, now, calls⟩
  | b :: bs, deleted, t, now, calls =>
    match env calls with
    | .err msg => .error msg
    | .ok _ charge =>
      let p := t.throttle now (charge.getD 10)
      deleteKnownLoop env bs (deleted + b.length) p.1 p.2 (calls + 1)

/-- Embeds `delete_v1.delete_vertices_in_batches` (lines 17-66). -/
def delete_vertices_in_batches (env : ℕ → Resp) (t : RUThrottler) (now : ℚ)
    (vertexIds : List String) (batchSize : ℕ) : Except String BatchDelOut :=
  deleteKnownLoop env (chunked batchSize vertexIds) 0 t now 0

/-- Embeds `delete_v1.delete_edges_in_batches` (lines 69-118); the body is identical to
the vertex variant except for the query text, which does not affect counts. -/
def delete_edges_in_batches (env : ℕ → Resp) (t : RUThrottler) (now : ℚ)
    (edgeIds : List String) (batchSize : ℕ) : Except String BatchDelOut :=
  deleteKnownLoop env (chunked batchSize edgeIds) 0 t now 0

/-- Row loop of `gremlin_v3.upload_vertices` (lines 166-190) restricted to its
effect on the Dedup Index and the remote calls it makes: rows are processed in
order; a row whose id is already in `inserted_vertex_ids` is skipped with no
submit; otherwise one `addV` submit is made and the id is added to the set only
after the submit succeeded (`ok i = true`); a `GremlinServerError` is caught and
logged, and the id is not added.  Returns the final set and the number of
submits made.  The query text (label dispatch, property escaping) does not
affect either and is not modelled. -/
def uploadVerticesGo (ok : ℕ → Bool) : ℕ → List String → Finset String → Finset String × ℕ
  | _, [], s => (s, 0)
  | i, v :: rest, s =>
    if v ∈ s then uploadVerticesGo ok (i + 1) rest s
    else
      let r := uploadVerticesGo ok (i + 1) rest (if ok i then insert v s else s)
      (r.1, r.2 + 1)

/-- Embeds `gremlin_v3.upload_vertices`, starting at row 0. -/
def upload_vertices (ok : ℕ → Bool) (rows : List String) (inserted : Finset String) :
    Finset String × ℕ :=
  uploadVerticesGo ok 0 rows inserted

/-- Five sequential `charge(30)` calls, the k-th issued `dk` seconds after the
previous one returned (spec scenario 1). -/
def chargeEvents (d1 d2 d3 d4 d5 : ℚ) : List (ℚ × ℚ) :=
  [(d1, 30), (d2, 30), (d3, 30), (d4, 30), (d5, 30)]

/-- The five `charge(30)` calls issued back to back. -/
def chargeThirtyFive : List (ℚ × ℚ) := chargeEvents 0 0 0 0 0

/-- Upload-task environment raising a transient throttle twice, then succeeding. -/
def envThrottleTwice : ℕ → Resp := fun n =>
  if n < 2 then .err "429 Request rate is large" else .ok [] none

/-- Upload-task environment raising a transient throttle on every attempt. -/
def envAllThrottle : ℕ → Resp := fun _ => .err "429 Request rate is large"

/-- Environment for the C6 failing input: the first fetch returns one edge id, the
following three submits (the drop attempts) are all throttled, and the next
fetch returns an empty page. -/
def envDropStarved : ℕ → Resp := fun n =>
  if n = 0 then .ok ["e1"] none
  else if n ≤ 3 then .err "429 Request rate is large"
  else .ok [] none

/-- An environment in which every submit succeeds with an empty result and no
reported charge. -/
def envAllOk : ℕ → Resp := fun _ => .ok [] none

/-- The 1,050-key ascending store of spec scenario 3. -/
def store1050 : List ℕ := List.range 1050

/-! ## Lemmas about the Budget Tracker -/

/-- In-window, under-limit call: the cost is recorded, nothing else changes, no sleep. -/
theorem throttle_stay (t : RUThrottler) (now ru : ℚ) (hw : now - t.windowStart < 1)
    (hc : t.ruConsumed + ru < t.ruLimit) :
    t.throttle now ru = ({ t with ruConsumed := t.ruConsumed + ru }, now) := by
  unfold RUThrottler.throttle
  rw [if_neg fun hx => absurd hx.2 (not_le.mpr hc), if_neg (not_le.mpr hw)]

/-- Overflow call: the call sleeps until exactly one second after the window
opened, then resets the window to the post-sleep clock. -/
theorem throttle_overflow (t : RUThrottler) (now ru : ℚ) (hw : now - t.windowStart < 1)
    (hc : t.ruLimit ≤ t.ruConsumed + ru) :
    t.throttle now ru
      = ({ t with windowStart := t.windowStart + 1, ruConsumed := 0 }, t.windowStart + 1) := by
  unfold RUThrottler.throttle
  rw [if_pos ⟨hw, hc⟩, show now + (1 - (now - t.windowStart)) = t.windowStart + 1 by ring]

/-- Stale-window call: the window is reset to the current clock with no sleep. -/
theorem throttle_reset (t : RUThrottler) (now ru : ℚ) (hw : 1 ≤ now - t.windowStart) :
    t.throttle now ru = ({ t with windowStart := now, ruConsumed := 0 }, now) := by
  unfold RUThrottler.throttle
  rw [if_neg fun hx => absurd hw (not_le.mpr hx.1), if_pos hw]

/-- The `throttle` call never changes the configured limit. -/
theorem throttle_ruLimit (t : RUThrottler) (now ru : ℚ) :
    ((t.throttle now ru).1).ruLimit = t.ruLimit := by
  unfold RUThrottler.throttle
  split_ifs <;> rfl

/-- After any `throttle` call the recorded spend of the current window is strictly
below the (positive) limit: an overflowing call resets before returning. -/
theorem throttle_consumed_lt (t : RUThrottler) (now ru : ℚ) (hl : 0 < t.ruLimit) :
    ((t.throttle now ru).1).ruConsumed < t.ruLimit := by
  unfold RUThrottler.throttle
  split_ifs with hx hy
  · simpa using hl
  · simpa using hl
  · push_neg at hx hy
    simpa using hx hy

/-- The limit is preserved along any sequence of calls. -/
theorem runThrottle_ruLimit (evs : List (ℚ × ℚ)) :
    ∀ (t : RUThrottler) (now : ℚ), ((runThrottle (t, now) evs).1).ruLimit = t.ruLimit := by
  induction evs with
  | nil => intro t now; rfl
  | cons e evs ih =>
    intro t now
    obtain ⟨d, ru⟩ := e
    calc ((runThrottle (t.throttle (now + d) ru) evs).1).ruLimit
        = ((t.throttle (now + d) ru).1).ruLimit := by
          have := ih ((t.throttle (now + d) ru).1) ((t.throttle (now + d) ru).2)
          simpa using this
      _ = t.ruLimit := throttle_ruLimit ..

/-- Along any sequence of calls, the spend recorded in the current window is
strictly below the limit at every point between calls. -/
theorem runThrottle_consumed_lt (evs : List (ℚ × ℚ)) :
    ∀ (t : RUThrottler) (now : ℚ), 0 < t.ruLimit → t.ruConsumed < t.ruLimit →
      ((runThrottle (t, now) evs).1).ruConsumed < t.ruLimit := by
  induction evs with
  | nil => intro t now _ h; exact h
  | cons e evs ih =>
    intro t now hl hc
    obtain ⟨d, ru⟩ := e
    have h1 : ((t.throttle (now + d) ru).1).ruLimit = t.ruLimit := throttle_ruLimit ..
    have h2 := ih ((t.throttle (now + d) ru).1) ((t.throttle (now + d) ru).2)
      (h1 ▸ hl) (h1 ▸ throttle_consumed_lt t (now + d) ru hl)
    rw [h1] at h2
    simpa using h2

/-- C1.  Budget invariant for `RUThrottler.throttle`: for every sequence of charge
calls with non-negative costs against a positive limit, the cumulative cost
recorded in the current one-second window (`ru_consumed`, which the code resets
exactly when a window ends) is strictly below the limit at every point between
calls — so the spend recorded within a window by completed calls never exceeds
the limit.  The single in-flight call that overflows the window (second
conjunct) sleeps until exactly `windowStart + 1`, i.e. finishes past the window
boundary, and resets the window (`ruConsumed = 0`, `windowStart` = post-sleep
clock) before it returns, so no new call starts before the window resets. -/
theorem c1_budget_invariant (limit t0 : ℚ) (hl : 0 < limit) (evs : List (ℚ × ℚ))
    (_hru : ∀ e ∈ evs, 0 ≤ e.2) :
    (∀ n : ℕ,
      ((runThrottle (RUThrottler.init limit t0, t0) (evs.take n)).1).ruConsumed < limit)
    ∧ (∀ (t : RUThrottler) (now ru : ℚ), now - t.windowStart < 1 →
        t.ruLimit ≤ t.ruConsumed + ru →
        (t.throttle now ru).2 = t.windowStart + 1
        ∧ ((t.throttle now ru).1).windowStart = t.windowStart + 1
        ∧ ((t.throttle now ru).1).ruConsumed = 0) := by
  refine ⟨fun n => ?_, fun t now ru hw hc => ?_⟩
  · exact runThrottle_consumed_lt (evs.take n) (RUThrottler.init limit t0) t0 hl hl
  · rw [throttle_overflow t now ru hw hc]
    exact ⟨rfl, rfl, rfl⟩

/-- Witness for C1 at spec scenario 1: five back-to-back `charge(30)` calls
against limit 100 leave the recorded window spend strictly below 100. -/
theorem c1_budget_invariant_witness :
    ((runThrottle (RUThrottler.init 100 0, 0) (chargeThirtyFive.take 5)).1).ruConsumed < 100 :=
  (c1_budget_invariant 100 0 (by norm_num) chargeThirtyFive (by decide)).1 5

/-- C2.  Spec scenario 1 for `RUThrottler.throttle` (`charge`): with limit 100,
five sequential `charge(30)` calls (the k-th issued `dk` seconds after the
previous returned, all within the first window) return as follows: the first
three return at the time they were issued (no sleep) having recorded 30, 60, 90
cost units; the 4th call blocks, returning only at `t0 + 1` (it sleeps the
remainder of the 1-second window that opened at `t0`) and resets the window:
`ruConsumed = 0` and `windowStart` equals the time the call returned; the 5th
call again returns without sleeping.  `charge` is a total function: it never
fails, only delays. -/
theorem c2_charge_contract (t0 d1 d2 d3 d4 d5 : ℚ)
    (_h1 : 0 ≤ d1) (h2 : 0 ≤ d2) (h3 : 0 ≤ d3) (h4 : 0 ≤ d4) (_h5 : 0 ≤ d5)
    (hsum : d1 + d2 + d3 + d4 < 1) (h5lt : d5 < 1) :
    (runThrottle (RUThrottler.init 100 t0, t0) ((chargeEvents d1 d2 d3 d4 d5).take 1))
      = (⟨100, t0, 30⟩, t0 + d1)
    ∧ (runThrottle (RUThrottler.init 100 t0, t0) ((chargeEvents d1 d2 d3 d4 d5).take 2))
      = (⟨100, t0, 60⟩, t0 + d1 + d2)
    ∧ (runThrottle (RUThrottler.init 100 t0, t0) ((chargeEvents d1 d2 d3 d4 d5).take 3))
      = (⟨100, t0, 90⟩, t0 + d1 + d2 + d3)
    ∧ (runThrottle (RUThrottler.init 100 t0, t0) ((chargeEvents d1 d2 d3 d4 d5).take 4))
      = (⟨100, t0 + 1, 0⟩, t0 + 1)
    ∧ (runThrottle (RUThrottler.init 100 t0, t0) (chargeEvents d1 d2 d3 d4 d5))
      = (⟨100, t0 + 1, 30⟩, t0 + 1 + d5) := by
  have e1 : (RUThrottler.init 100 t0).throttle (t0 + d1) 30 = (⟨100, t0, 30⟩, t0 + d1) := by
    rw [throttle_stay _ _ _ (by simp [RUThrottler.init]; linarith)
      (by simp [RUThrottler.init]; norm_num)]
    all_goals simp [RUThrottler.init]
  have e2 : (RUThrottler.mk 100 t0 30).throttle (t0 + d1 + d2) 30
      = (⟨100, t0, 60⟩, t0 + d1 + d2) := by
    rw [throttle_stay _ _ _ (by simp; linarith) (by simp; norm_num)]
    all_goals norm_num
  have e3 : (RUThrottler.mk 100 t0 60).throttle (t0 + d1 + d2 + d3) 30
      = (⟨100, t0, 90⟩, t0 + d1 + d2 + d3) := by
    rw [throttle_stay _ _ _ (by simp; linarith) (by simp; norm_num)]
    all_goals norm_num
  have e4 : (RUThrottler.mk 100 t0 90).throttle (t0 + d1 + d2 + d3 + d4) 30
      = (⟨100, t0 + 1, 0⟩, t0 + 1) := by
    rw [throttle_overflow _ _ _ (by simp; linarith) (by simp; norm_num)]
  have e5 : (RUThrottler.mk 100 (t0 + 1) 0).throttle (t0 + 1 + d5) 30
      = (⟨100, t0 + 1, 30⟩, t0 + 1 + d5) := by
    rw [throttle_stay _ _ _ (by simp; linarith) (by simp; norm_num)]
    all_goals norm_num
  refine ⟨?_, ?_, ?_, ?_, ?_⟩ <;>
    simp only [chargeEvents, List.take, runThrottle, e1, e2, e3, e4, e5]

/-- Witness for C2: the five calls issued back to back starting at time 0; after
the 4th call the window has been reset at time 1. -/
theorem c2_charge_contract_witness :
    runThrottle (RUThrottler.init 100 0, 0) ((chargeEvents 0 0 0 0 0).take 4)
      = (⟨100, 1, 0⟩, 1) := by
  have h := (c2_charge_contract 0 0 0 0 0 0 le_rfl le_rfl le_rfl le_rfl le_rfl
    (by norm_num) (by norm_num)).2.2.2.1
  simpa using h

/-! ## Lemmas about the Retry/Backoff Controller -/

/-- The retry loop makes at most as many submits as it has attempts left. -/
theorem uploadTaskGo_submits_le (env : ℕ → Resp) (base : ℚ) :
    ∀ (rem attempt : ℕ) (t : RUThrottler) (now : ℚ),
      (uploadTaskGo env base attempt rem t now).submits ≤ rem := by
  intro rem
  induction rem with
  | zero => intro attempt t now; simp [uploadTaskGo]
  | succ rem ih =>
    intro attempt t now
    unfold uploadTaskGo
    match env attempt with
    | .ok r charge => simp
    | .err msg =>
      by_cases hm : isThrottleOrTimeout msg = true
      · simp only [hm, if_true]
        have := ih (attempt + 1) t (now + base * 2 ^ attempt)
        simpa using Nat.succ_le_succ this
      · simp only [Bool.not_eq_true] at hm
        simp [hm]

/-- The backoff sleeps of the retry loop are exactly `base * 2 ^ k` for the
consecutive attempt indices `k` at which a transient failure occurred. -/
theorem uploadTaskGo_sleeps (env : ℕ → Resp) (base : ℚ) :
    ∀ (rem attempt : ℕ) (t : RUThrottler) (now : ℚ),
      ∃ n, n ≤ rem ∧
        (uploadTaskGo env base attempt rem t now).sleeps
          = (List.range n).map (fun k => base * 2 ^ (attempt + k)) := by
  intro rem
  induction rem with
  | zero => intro attempt t now; exact ⟨0, le_rfl, by simp [uploadTaskGo]⟩
  | succ rem ih =>
    intro attempt t now
    unfold uploadTaskGo
    match env attempt with
    | .ok r charge => exact ⟨0, Nat.zero_le _, rfl⟩
    | .err msg =>
      by_cases hm : isThrottleOrTimeout msg = true
      · simp only [hm, if_true]
        obtain ⟨n, hn, h⟩ := ih (attempt + 1) t (now + base * 2 ^ attempt)
        refine ⟨n + 1, Nat.succ_le_succ hn, ?_⟩
        simp only [h, List.range_succ_eq_map, List.map_cons, List.map_map]
        refine congrArg₂ List.cons (by norm_num) ?_
        refine List.map_congr_left fun k _ => ?_
        simp only [Function.comp_apply]
        rw [show attempt + 1 + k = attempt + (k + 1) from by omega]
      · simp only [Bool.not_eq_true] at hm
        exact ⟨0, Nat.zero_le _, by simp [hm]⟩

/-- The concrete 429 message used by the test environments is a transient signal
for the 429-or-timeout classifiers. -/
theorem sig429_true : isThrottleOrTimeout "429 Request rate is large" = true := by decide

/-- C5.  Retry bound and backoff shape of the Retry Controller
(`loader_and_uploader_250714._upload_task`; `delete_v5` uses the identical
pattern for its page fetches): the operation is attempted at most `maxRetries`
times; the backoff sleeps performed are exactly `base * 2 ^ k` for the
consecutive failed attempt indices `k`, hence strictly increasing per attempt
when `base > 0`; and in the concrete scenario of the spec (transient throttle
twice, success on the 3rd attempt, `maxAttempts = 3`, `backoffBase = 1.0`) the
task succeeds after 3 submits with sleeps `[1, 2]` totalling 3 seconds, while a
permanently throttled task is abandoned after exactly 3 attempts. -/
theorem c5_retry_bound (env : ℕ → Resp) (maxRetries : ℕ) (base : ℚ) (hb : 0 < base)
    (t : RUThrottler) (now : ℚ) :
    (uploadTask env maxRetries base t now).submits ≤ maxRetries
    ∧ (∃ n, n ≤ maxRetries ∧
        (uploadTask env maxRetries base t now).sleeps
          = (List.range n).map (fun k => base * 2 ^ k))
    ∧ (uploadTask env maxRetries base t now).sleeps.Pairwise (· < ·)
    ∧ ((uploadTask envThrottleTwice 3 1 (RUThrottler.init 400 0) 0).success = true
        ∧ (uploadTask envThrottleTwice 3 1 (RUThrottler.init 400 0) 0).submits = 3
        ∧ (uploadTask envThrottleTwice 3 1 (RUThrottler.init 400 0) 0).sleeps = [1, 2]
        ∧ (uploadTask envThrottleTwice 3 1 (RUThrottler.init 400 0) 0).sleeps.sum = 3)
    ∧ ((uploadTask envAllThrottle 3 1 (RUThrottler.init 400 0) 0).success = false
        ∧ (uploadTask envAllThrottle 3 1 (RUThrottler.init 400 0) 0).submits = 3) := by
  refine ⟨uploadTaskGo_submits_le env base maxRetries 0 t now, ?_, ?_, ?_, ?_⟩
  · obtain ⟨n, hn, h⟩ := uploadTaskGo_sleeps env base maxRetries 0 t now
    exact ⟨n, hn, by simpa using h⟩
  · obtain ⟨n, hn, h⟩ := uploadTaskGo_sleeps env base maxRetries 0 t now
    have h2 : (uploadTask env maxRetries base t now).sleeps
        = (List.range n).map (fun k => base * 2 ^ k) := by simpa using h
    rw [h2, List.pairwise_map]
    refine (List.pairwise_lt_range n).imp ?_
    intro a b hab
    exact mul_lt_mul_of_pos_left (pow_lt_pow_right₀ (by norm_num) hab) hb
  · refine ⟨by decide, by decide, ?_, ?_⟩
    · norm_num [uploadTask, uploadTaskGo, envThrottleTwice, sig429_true]
    · norm_num [uploadTask, uploadTaskGo, envThrottleTwice, sig429_true]
  · exact ⟨by decide, by decide⟩

/-- Witness for C5 at the spec scenario: three attempts with base 1. -/
theorem c5_retry_bound_witness :
    (uploadTask envThrottleTwice 3 1 (RUThrottler.init 400 0) 0).submits ≤ 3
    ∧ (uploadTask envThrottleTwice 3 1 (RUThrottler.init 400 0) 0).sleeps.Pairwise (· < ·) :=
  ⟨(c5_retry_bound envThrottleTwice 3 1 (by norm_num) (RUThrottler.init 400 0) 0).1,
   (c5_retry_bound envThrottleTwice 3 1 (by norm_num) (RUThrottler.init 400 0) 0).2.2.1⟩

/-- A GraphTimeoutException message is a timeout signal. -/
theorem sigTimeout_true : isTimeoutSignal "GraphTimeoutException raised" = true := by decide

/-- A GraphTimeoutException message is not a 429/TooManyRequests signal. -/
theorem sigRate_false_on_timeout : isRateLimitSignal "GraphTimeoutException raised" = false := by
  decide

/-- A 429 message is a 429/TooManyRequests signal. -/
theorem sigRate_true : isRateLimitSignal "429 Request rate is large" = true := by decide

/-- Counterexample to C4 as stated: in
`load_existing_continuation.load_existing_vertices`, an error signalling
rate-limit exceeded (a `429` message) is NOT classified transient — the very
first attempt re-raises it as fatal (one submit, no retry, no backoff), because
that retry site only matches `GraphTimeoutException`. -/
theorem c4_counterexample :
    contFetchRetry (fun _ => .err "429 Request rate is large") 1 0 3
        ⟨RUThrottler.init 400 0, 0, 0, 1000⟩
      = .fatal "429 Request rate is large" ⟨RUThrottler.init 400 0, 0, 1, 1000⟩ := by
  decide

/-- C4 (amended).  Each retry site classifies against its own signal set, not the
full rate-limit-or-timeout taxonomy: `load_existing_vertices` treats only
timeout messages as transient (retrying with the page size halved, floored at
100) and raises any other error — including a rate-limit 429 — immediately on
first occurrence; `_drop_batch` treats only 429/TooManyRequests messages as
transient and abandons the batch immediately (count 0, no exception) on any
other error — including a timeout; its transient errors are retried and a
subsequent success counts the whole batch. -/
theorem c4_error_classification (m1 m2 : String) (ids : List String)
    (h1 : isTimeoutSignal m1 = false) (h2 : isRateLimitSignal m2 = false) :
    contFetchRetry (fun _ => .err m1) 1 0 3 ⟨RUThrottler.init 400 0, 0, 0, 1000⟩
      = .fatal m1 ⟨RUThrottler.init 400 0, 0, 1, 1000⟩
    ∧ ((contFetchRetry
          (fun n => if n = 0 then .err "GraphTimeoutException raised" else .ok [] none)
          1 0 3 ⟨RUThrottler.init 400 0, 0, 0, 1000⟩).gotIds = some []
        ∧ (contFetchRetry
            (fun n => if n = 0 then .err "GraphTimeoutException raised" else .ok [] none)
            1 0 3 ⟨RUThrottler.init 400 0, 0, 0, 1000⟩).stOf.calls = 2
        ∧ (contFetchRetry
            (fun n => if n = 0 then .err "GraphTimeoutException raised" else .ok [] none)
            1 0 3 ⟨RUThrottler.init 400 0, 0, 0, 1000⟩).stOf.currentBatch = 500)
    ∧ dropBatch (fun _ => .err m2) ids 1 0 3 ⟨RUThrottler.init 400 0, 0, 0⟩
      = (0, ⟨RUThrottler.init 400 0, 0, 1⟩)
    ∧ ((dropBatch (fun n => if n = 0 then .err "429 Request rate is large" else .ok [] none)
          ids 1 0 3 ⟨RUThrottler.init 400 0, 0, 0⟩).1 = ids.length
        ∧ (dropBatch (fun n => if n = 0 then .err "429 Request rate is large" else .ok [] none)
            ids 1 0 3 ⟨RUThrottler.init 400 0, 0, 0⟩).2.calls = 2) := by
  refine ⟨?_, ⟨by decide, by decide, by decide⟩, ?_, ?_, ?_⟩
  · simp [contFetchRetry, h1]
  · simp [dropBatch, h2]
  · simp [dropBatch, sigRate_true]
  · simp [dropBatch, sigRate_true]

/-- Witness for C4 (amended): a 429 message at the continuation loader is fatal
at once; a timeout message at the parallel drop abandons the batch at once. -/
theorem c4_error_classification_witness :
    contFetchRetry (fun _ => .err "429 Request rate is large") 1 0 3
        ⟨RUThrottler.init 400 0, 0, 0, 1000⟩
      = .fatal "429 Request rate is large" ⟨RUThrottler.init 400 0, 0, 1, 1000⟩
    ∧ dropBatch (fun _ => .err "GraphTimeoutException raised") ["a"] 1 0 3
        ⟨RUThrottler.init 400 0, 0, 0⟩
      = (0, ⟨RUThrottler.init 400 0, 0, 1⟩) := by
  have h := c4_error_classification "429 Request rate is large" "GraphTimeoutException raised"
    ["a"] (by decide) (by decide)
  exact ⟨h.1, h.2.2.1⟩

/-! ## Lemmas about the delete_v5 operation trace -/

/-- The fetch retry loop only ever submits its own fetch intent. -/
theorem fetchRetry5_trace (env : ℕ → Resp) (op : Op) (base : ℚ) :
    ∀ (rem attempt : ℕ) (st : RunSt), ∃ l,
      ((fetchRetry5 env op base attempt rem st).st).trace = st.trace ++ l
      ∧ ∀ x ∈ l, x = op := by
  intro rem
  induction rem with
  | zero => intro attempt st; exact ⟨[], by simp [fetchRetry5, FetchOut.st], by simp⟩
  | succ rem ih =>
    intro attempt st
    unfold fetchRetry5
    simp only [submitOp]
    cases henv : env st.calls with
    | ok ids charge =>
      exact ⟨[op], by simp [FetchOut.st], by simp⟩
    | err msg =>
      by_cases hm : isThrottleOrTimeout msg = true
      · simp only [hm, if_true]
        obtain ⟨l, hl, hall⟩ := ih (attempt + 1)
          { st with calls := st.calls + 1, trace := st.trace ++ [op],
                    now := st.now + base * 2 ^ attempt }
        refine ⟨op :: l, ?_, ?_⟩
        · simpa [List.append_assoc] using hl
        · intro x hx
          rcases List.mem_cons.mp hx with h | h
          · exact h
          · exact hall x h
      · simp only [Bool.not_eq_true] at hm
        exact ⟨[op], by simp [hm, FetchOut.st], by simp⟩

/-- The drop retry loop only ever submits its own drop intent. -/
theorem dropRetry5_trace (env : ℕ → Resp) (op : Op) (base : ℚ) :
    ∀ (rem attempt : ℕ) (st : RunSt), ∃ l,
      ((dropRetry5 env op base attempt rem st).st).trace = st.trace ++ l
      ∧ ∀ x ∈ l, x = op := by
  intro rem
  induction rem with
  | zero => intro attempt st; exact ⟨[], by simp [dropRetry5, DropOut.st], by simp⟩
  | succ rem ih =>
    intro attempt st
    unfold dropRetry5
    simp only [submitOp]
    cases henv : env st.calls with
    | ok ids charge =>
      exact ⟨[op], by simp [DropOut.st], by simp⟩
    | err msg =>
      by_cases hm : isThrottleOrTimeout msg = true
      · simp only [hm, if_true]
        obtain ⟨l, hl, hall⟩ := ih (attempt + 1)
          { st with calls := st.calls + 1, trace := st.trace ++ [op],
                    now := st.now + base * 2 ^ attempt }
        refine ⟨op :: l, ?_, ?_⟩
        · simpa [List.append_assoc] using hl
        · intro x hx
          rcases List.mem_cons.mp hx with h | h
          · exact h
          · exact hall x h
      · simp only [Bool.not_eq_true] at hm
        exact ⟨[op], by simp [hm, DropOut.st], by simp⟩

/-- A `delete_v5` phase loop only ever submits its own fetch or drop intents. -/
theorem deleteLoop5_trace (env : ℕ → Resp) (fOp dOp : Op) (maxRetries : ℕ) (base : ℚ) :
    ∀ (fuel deleted : ℕ) (st : RunSt), ∃ l,
      ((deleteLoop5 env fOp dOp maxRetries base fuel deleted st).st).trace = st.trace ++ l
      ∧ ∀ x ∈ l, x = fOp ∨ x = dOp := by
  intro fuel
  induction fuel with
  | zero => intro deleted st; exact ⟨[], by simp [deleteLoop5], by simp⟩
  | succ fuel ih =>
    intro deleted st
    unfold deleteLoop5
    obtain ⟨lf, hlf, hallf⟩ := fetchRetry5_trace env fOp base maxRetries 0 st
    cases hf : fetchRetry5 env fOp base 0 maxRetries st with
    | exhausted st1 =>
      rw [hf] at hlf
      exact ⟨lf, hlf, fun x hx => Or.inl (hallf x hx)⟩
    | fatal msg st1 =>
      rw [hf] at hlf
      exact ⟨lf, hlf, fun x hx => Or.inl (hallf x hx)⟩
    | got ids st1 =>
      rw [hf] at hlf
      dsimp only
      by_cases he : ids.isEmpty
      · rw [if_pos he]
        exact ⟨lf, hlf, fun x hx => Or.inl (hallf x hx)⟩
      · rw [if_neg he]
        simp only [FetchOut.st] at hlf
        obtain ⟨ld, hld, halld⟩ := dropRetry5_trace env dOp base maxRetries 0 st1
        cases hd : dropRetry5 env dOp base 0 maxRetries st1 with
        | fatal msg st2 =>
          rw [hd] at hld
          simp only [DropOut.st] at hld
          refine ⟨lf ++ ld, ?_, ?_⟩
          · show st2.trace = st.trace ++ (lf ++ ld)
            rw [hld, hlf, List.append_assoc]
          · intro x hx
            rcases List.mem_append.mp hx with h | h
            · exact Or.inl (hallf x h)
            · exact Or.inr (halld x h)
        | done st2 =>
          rw [hd] at hld
          simp only [DropOut.st] at hld
          obtain ⟨lr, hlr, hallr⟩ := ih (deleted + ids.length) st2
          refine ⟨lf ++ ld ++ lr, ?_, ?_⟩
          · show (deleteLoop5 env fOp dOp maxRetries base fuel (deleted + ids.length) st2).st.trace
              = st.trace ++ (lf ++ ld ++ lr)
            rw [hlr, hld, hlf]
            simp [List.append_assoc]
          · intro x hx
            rcases List.mem_append.mp hx with h | h
            · rcases List.mem_append.mp h with h2 | h2
              · exact Or.inl (hallf x h2)
              · exact Or.inr (halld x h2)
            · exact hallr x h

/-- The `gremlin_v3` batched-delete loop only ever submits its own drop intent. -/
theorem deleteAllBatched_trace (env : ℕ → Resp) (op : Op) (batchSize : ℕ) :
    ∀ (fuel total : ℕ) (st : RunSt), ∃ l,
      ((deleteAllBatched env op batchSize fuel total st).st).trace = st.trace ++ l
      ∧ ∀ x ∈ l, x = op := by
  intro fuel
  induction fuel with
  | zero => intro total st; exact ⟨[], by simp [deleteAllBatched], by simp⟩
  | succ fuel ih =>
    intro total st
    unfold deleteAllBatched
    simp only [submitOp]
    cases henv : env st.calls with
    | ok ids charge =>
      dsimp only
      obtain ⟨l, hl, hall⟩ := ih (total + batchSize)
        ⟨(st.thr.throttle st.now 10).1, (st.thr.throttle st.now 10).2,
          st.calls + 1, st.trace ++ [op], st.dropOks⟩
      refine ⟨op :: l, ?_, ?_⟩
      · simpa [List.append_assoc] using hl
      · intro x hx
        rcases List.mem_cons.mp hx with h | h
        · exact h
        · exact hall x h
    | err msg =>
      dsimp only
      by_cases hm : isNoMoreElements msg = true
      · rw [if_pos hm]
        exact ⟨[op], by simp, by simp⟩
      · rw [if_neg hm]
        exact ⟨[op], by simp, by simp⟩

/-- Counterexample to C3 as stated: in `gremlin_v3.clear_graph`, the edge loop
(`delete_all_edges_batched`) has no retries and swallows any non-terminal error
— here its single drop submit raises a connection error, which is printed and
the loop breaks — and vertex-delete batches are then dispatched anyway, even
though the edge walker never reported a terminal signal and no pagination-retry
exhaustion occurred. -/
theorem c3_counterexample :
    (clear_graph envSwallow 5 (mkRunSt 400 0)).1.ending
      = BatchedEnd.swallowed "Connection reset by peer"
    ∧ (clear_graph envSwallow 5 (mkRunSt 400 0)).2.st.trace
      = [Op.edgeDrop, Op.vertexDrop, Op.vertexDrop]
    ∧ (clear_graph envSwallow 5 (mkRunSt 400 0)).2.ending = BatchedEnd.noMore := by
  exact ⟨by decide, by decide, by decide⟩

/-- C3 (amended).  Phase ordering in the two cited full-clear workflows: the
trace of submitted operations always splits into an edge-phase prefix followed
by a vertex-phase suffix — no vertex-delete batch is ever dispatched before the
edge-deletion phase has returned.  In `delete_v5.delete_all_vertices_in_batches`
(which runs `delete_all_edges_in_batches` to completion on line 119 before its
own vertex loop) the guarantee is the strong one the claim states: any vertex
operation implies the edge walker reported its terminal empty page or exhausted
its pagination retries, a fatal edge error propagating before any vertex op.
In `gremlin_v3.clear_graph` only the ordering holds: the edge loop has no
retries and can also end by swallowing an arbitrary error (print then break, as
in `c3_counterexample`), and vertex-delete batches are dispatched whenever the
edge loop returned at all (`ending ≠ outOfFuel`), terminal signal or not. -/
theorem c3_delete_ordering (env : ℕ → Resp) (maxRetries : ℕ) (base : ℚ) (fuel : ℕ)
    (limit t0 : ℚ) (env2 : ℕ → Resp) (fuel2 : ℕ) (limit2 t02 : ℚ) :
    (∃ tE tV,
      ((delete_all_vertices_in_batches env maxRetries base fuel (mkRunSt limit t0)).2.st).trace
        = tE ++ tV
      ∧ (∀ x ∈ tE, x.isEdge = true)
      ∧ (∀ x ∈ tV, x.isVertex = true)
      ∧ (tV ≠ [] →
          (delete_all_vertices_in_batches env maxRetries base fuel (mkRunSt limit t0)).1
            = Ending.emptyPage
          ∨ (delete_all_vertices_in_batches env maxRetries base fuel (mkRunSt limit t0)).1
            = Ending.fetchExhausted))
    ∧ (∃ tE tV,
      ((clear_graph env2 fuel2 (mkRunSt limit2 t02)).2.st).trace = tE ++ tV
      ∧ (∀ x ∈ tE, x = Op.edgeDrop)
      ∧ (∀ x ∈ tV, x = Op.vertexDrop)
      ∧ (tV ≠ [] →
          ¬ (clear_graph env2 fuel2 (mkRunSt limit2 t02)).1.ending = BatchedEnd.outOfFuel)) := by
  constructor
  · obtain ⟨lE, hE, hallE⟩ :=
      deleteLoop5_trace env .edgeFetch .edgeDrop maxRetries base fuel 0 (mkRunSt limit t0)
    have hEe : ∀ x ∈ lE, x.isEdge = true := by
      intro x hx
      rcases hallE x hx with h | h <;> simp [h, Op.isEdge]
    have htr : ((delete_all_edges_in_batches env maxRetries base fuel (mkRunSt limit t0)).st).trace
        = lE := by
      simpa [mkRunSt, delete_all_edges_in_batches] using hE
    cases hend : (delete_all_edges_in_batches env maxRetries base fuel (mkRunSt limit t0)).ending with
    | emptyPage =>
      obtain ⟨lV, hV, hallV⟩ := deleteLoop5_trace env .vertexFetch .vertexDrop maxRetries base fuel 0
        (delete_all_edges_in_batches env maxRetries base fuel (mkRunSt limit t0)).st
      refine ⟨lE, lV, ?_, hEe, ?_, ?_⟩
      · simp only [delete_all_vertices_in_batches, hend]
        rw [hV, htr]
      · intro x hx
        rcases hallV x hx with h | h <;> simp [h, Op.isVertex]
      · intro _
        left
        simp [delete_all_vertices_in_batches, hend]
    | fetchExhausted =>
      obtain ⟨lV, hV, hallV⟩ := deleteLoop5_trace env .vertexFetch .vertexDrop maxRetries base fuel 0
        (delete_all_edges_in_batches env maxRetries base fuel (mkRunSt limit t0)).st
      refine ⟨lE, lV, ?_, hEe, ?_, ?_⟩
      · simp only [delete_all_vertices_in_batches, hend]
        rw [hV, htr]
      · intro x hx
        rcases hallV x hx with h | h <;> simp [h, Op.isVertex]
      · intro _
        right
        simp [delete_all_vertices_in_batches, hend]
    | fatalErr msg =>
      refine ⟨lE, [], ?_, hEe, by simp, fun h => absurd rfl h⟩
      simp only [delete_all_vertices_in_batches, hend]
      simpa using htr
    | outOfFuel =>
      refine ⟨lE, [], ?_, hEe, by simp, fun h => absurd rfl h⟩
      simp only [delete_all_vertices_in_batches, hend]
      simpa using htr
  · obtain ⟨lE, hE, hallE⟩ :=
      deleteAllBatched_trace env2 .edgeDrop 1000 fuel2 0 (mkRunSt limit2 t02)
    have htr : ((delete_all_edges_batched env2 1000 fuel2 (mkRunSt limit2 t02)).st).trace
        = lE := by
      simpa [mkRunSt, delete_all_edges_batched] using hE
    cases hend : (delete_all_edges_batched env2 1000 fuel2 (mkRunSt limit2 t02)).ending with
    | noMore =>
      obtain ⟨lV, hV, hallV⟩ := deleteAllBatched_trace env2 .vertexDrop 1000 fuel2 0
        (delete_all_edges_batched env2 1000 fuel2 (mkRunSt limit2 t02)).st
      refine ⟨lE, lV, ?_, hallE, hallV, ?_⟩
      · simp only [clear_graph, delete_all_vertices_batched, hend]
        rw [hV, htr]
      · intro _
        simp [clear_graph, hend]
    | swallowed msg =>
      obtain ⟨lV, hV, hallV⟩ := deleteAllBatched_trace env2 .vertexDrop 1000 fuel2 0
        (delete_all_edges_batched env2 1000 fuel2 (mkRunSt limit2 t02)).st
      refine ⟨lE, lV, ?_, hallE, hallV, ?_⟩
      · simp only [clear_graph, delete_all_vertices_batched, hend]
        rw [hV, htr]
      · intro _
        simp [clear_graph, hend]
    | outOfFuel =>
      refine ⟨lE, [], ?_, hallE, by simp, fun h => absurd rfl h⟩
      simp only [clear_graph, hend]
      simpa using htr

/-- C6.  In `delete_v5.delete_all_edges_in_batches`, a batch whose drop submits
exhaust all retries (three transient 429s with `max_retries = 3`) is still added
to the returned `deleted` count — the drop retry loop has no `else` clause, so
exhaustion falls through silently to `deleted += len(ids)`: here one page of one
edge id is fetched, its drop never succeeds (`dropOks = 0`), the next page is
empty so the phase ends normally, and yet the function returns `deleted = 1`. -/
theorem c6_abandoned_batch_still_counted :
    (delete_all_edges_in_batches envDropStarved 3 1 5 (mkRunSt 400 0)).deleted = 1
    ∧ (delete_all_edges_in_batches envDropStarved 3 1 5 (mkRunSt 400 0)).st.dropOks = 0
    ∧ (delete_all_edges_in_batches envDropStarved 3 1 5 (mkRunSt 400 0)).ending
        = Ending.emptyPage := by
  exact ⟨by decide, by decide, by decide⟩

set_option maxRecDepth 10000 in
/-- Counterexample to C9 as stated: on the fixed 1,050-key store with
`pageSize = 500` the walk does fetch pages of 500, 500 and 50, but
`last_graph_id` is assigned three times — once after every non-empty page
(line 82 runs for each of the three pages) — not exactly twice. -/
theorem c9_counterexample :
    ((load_existing_vertices_by_keyset (fun _ => none) store1050 500 3 1 10
        ⟨RUThrottler.init 400 0, 0, 0⟩).pages.map List.length) = [500, 500, 50]
    ∧ (load_existing_vertices_by_keyset (fun _ => none) store1050 500 3 1 10
        ⟨RUThrottler.init 400 0, 0, 0⟩).lastUpdates = 3
    ∧ ¬ (load_existing_vertices_by_keyset (fun _ => none) store1050 500 3 1 10
        ⟨RUThrottler.init 400 0, 0, 0⟩).lastUpdates = 2 := by
  exact ⟨by decide, by decide, by decide⟩

set_option maxRecDepth 10000 in
/-- C9 (amended).  Keyset walk over the fixed, unmutated 1,050-key store with
`pageSize = 500`: exactly 3 non-empty pages of sizes 500, 500 and 50 are
fetched (each page requests keys strictly greater than `lastKey` and sets
`lastKey` to its last item's key — that is `keysetPage`/`keysetLoop` by
definition), the pages together cover the store exactly once,
`lastKey` ends at the greatest key, and `lastKey` is updated exactly three
times — once per non-empty page — before the walk terminates on its 4th,
empty fetch. -/
theorem c9_keyset_walk :
    ((load_existing_vertices_by_keyset (fun _ => none) store1050 500 3 1 10
        ⟨RUThrottler.init 400 0, 0, 0⟩).pages.map List.length) = [500, 500, 50]
    ∧ (load_existing_vertices_by_keyset (fun _ => none) store1050 500 3 1 10
        ⟨RUThrottler.init 400 0, 0, 0⟩).pages.flatten = store1050
    ∧ (load_existing_vertices_by_keyset (fun _ => none) store1050 500 3 1 10
        ⟨RUThrottler.init 400 0, 0, 0⟩).lastUpdates = 3
    ∧ (load_existing_vertices_by_keyset (fun _ => none) store1050 500 3 1 10
        ⟨RUThrottler.init 400 0, 0, 0⟩).lastKey = some 1049
    ∧ (load_existing_vertices_by_keyset (fun _ => none) store1050 500 3 1 10
        ⟨RUThrottler.init 400 0, 0, 0⟩).st.calls = 4
    ∧ (load_existing_vertices_by_keyset (fun _ => none) store1050 500 3 1 10
        ⟨RUThrottler.init 400 0, 0, 0⟩).ending = Ending.emptyPage := by
  exact ⟨by decide, by decide, by decide, by decide, by decide, by decide⟩

/-! ## Lemmas about the known-id batch deletes -/

/-- For a positive slice size, `chunked` partitions the input: the chunk lengths
sum to the input length. -/
theorem chunked_sum (size : ℕ) (hs : ¬ size = 0) :
    ∀ l : List String, ((chunked size l).map List.length).sum = l.length := by
  have H : ∀ (n : ℕ) (l : List String), l.length = n →
      ((chunked size l).map List.length).sum = l.length := by
    intro n
    induction n using Nat.strong_induction_on with
    | _ n ih =>
      intro l hl
      match l with
      | [] => simp [chunked]
      | a :: t =>
        unfold chunked
        rw [dif_neg hs]
        simp only [List.map_cons, List.sum_cons]
        have hdrop : ((a :: t).drop size).length < n := by
          simp only [List.length_drop, List.length_cons]
          simp only [List.length_cons] at hl
          omega
        rw [ih _ hdrop ((a :: t).drop size) rfl]
        simp only [List.length_take, List.length_drop, List.length_cons]
        omega
  exact fun l => H l.length l rfl

/-- When the batch loop returns normally, the returned count is the accumulator
plus the total size of the remaining batches: every batch whose submit returned
is counted in full, with no inspection of what the store actually removed. -/
theorem deleteKnownLoop_deleted (env : ℕ → Resp) :
    ∀ (bs : List (List String)) (acc : ℕ) (t : RUThrottler) (now : ℚ) (calls : ℕ)
      (out : BatchDelOut),
      deleteKnownLoop env bs acc t now calls = .ok out →
      out.deleted = acc + (bs.map List.length).sum := by
  intro bs
  induction bs with
  | nil =>
    intro acc t now calls out h
    cases h
    simp
  | cons b bs ih =>
    intro acc t now calls out h
    unfold deleteKnownLoop at h
    cases henv : env calls with
    | err msg => rw [henv] at h; simp at h
    | ok r charge =>
      rw [henv] at h
      have := ih (acc + b.length)
        ((t.throttle now (charge.getD 10)).1) ((t.throttle now (charge.getD 10)).2) (calls + 1)
        out h
      rw [this]
      simp only [List.map_cons, List.sum_cons]
      omega

/-- Counterexample to C10 as stated: with `batch_size = 0`, `chunked` yields no
batches at all (`islice(it, 0)` is empty), so `delete_vertices_in_batches`
returns normally with `deleted = 0` even though one id was passed in. -/
theorem c10_counterexample :
    (delete_vertices_in_batches envAllOk (RUThrottler.init 400 0) 0 ["a"] 0).toOption.map
        BatchDelOut.deleted = some 0
    ∧ (["a"] : List String).length = 1 := by
  refine ⟨?_, by decide⟩
  simp [delete_vertices_in_batches, chunked, deleteKnownLoop, Except.toOption]

/-- C10 (amended).  For every positive `batch_size`, whenever
`delete_v1.delete_vertices_in_batches` or `delete_v1.delete_edges_in_batches`
returns normally (no submit raised), the returned count equals exactly the
number of ids in the input: every input id is counted once its batch's submit
call returns, without inspecting how many entities the remote store actually
removed. -/
theorem c10_known_id_delete_count (env : ℕ → Resp) (t : RUThrottler) (now : ℚ)
    (ids : List String) (size : ℕ) (hs : 0 < size) :
    ((delete_vertices_in_batches env t now ids size).toOption.map BatchDelOut.deleted = none
      ∨ (delete_vertices_in_batches env t now ids size).toOption.map BatchDelOut.deleted
          = some ids.length)
    ∧ ((delete_edges_in_batches env t now ids size).toOption.map BatchDelOut.deleted = none
      ∨ (delete_edges_in_batches env t now ids size).toOption.map BatchDelOut.deleted
          = some ids.length) := by
  have hs0 : ¬ size = 0 := by omega
  constructor
  · cases hr : delete_vertices_in_batches env t now ids size with
    | error m => left; simp [hr, Except.toOption]
    | ok out =>
      right
      have hd := deleteKnownLoop_deleted env (chunked size ids) 0 t now 0 out hr
      rw [chunked_sum size hs0 ids] at hd
      simp [hr, hd, Except.toOption]
  · cases hr : delete_edges_in_batches env t now ids size with
    | error m => left; simp [hr, Except.toOption]
    | ok out =>
      right
      have hd := deleteKnownLoop_deleted env (chunked size ids) 0 t now 0 out hr
      rw [chunked_sum size hs0 ids] at hd
      simp [hr, hd, Except.toOption]

/-- Witness for C10 (amended): 3 ids in batches of 2, every submit succeeding. -/
theorem c10_known_id_delete_count_witness :
    ((delete_vertices_in_batches envAllOk (RUThrottler.init 400 0) 0 ["a", "b", "c"] 2).toOption.map
        BatchDelOut.deleted = none
      ∨ (delete_vertices_in_batches envAllOk (RUThrottler.init 400 0) 0 ["a", "b", "c"] 2).toOption.map
          BatchDelOut.deleted = some 3)
    ∧ ((delete_edges_in_batches envAllOk (RUThrottler.init 400 0) 0 ["a", "b", "c"] 2).toOption.map
        BatchDelOut.deleted = none
      ∨ (delete_edges_in_batches envAllOk (RUThrottler.init 400 0) 0 ["a", "b", "c"] 2).toOption.map
          BatchDelOut.deleted = some 3) := by
  have h := c10_known_id_delete_count envAllOk (RUThrottler.init 400 0) 0 ["a", "b", "c"] 2
    (by decide)
  simpa using h

/-! ## Lemmas about the Dedup Index -/

/-- Membership in the Dedup Index after the upload row loop: a key is in the
final set iff it was already there or some row carries it and that row's remote
mutation succeeded.  In particular a key is never added on a failed call. -/
theorem uploadVerticesGo_mem (ok : ℕ → Bool) :
    ∀ (rows : List String) (i0 : ℕ) (s : Finset String) (k : String),
      k ∈ (uploadVerticesGo ok i0 rows s).1
      ↔ k ∈ s ∨ ∃ j, j < rows.length ∧ rows.getD j "" = k ∧ ok (i0 + j) = true := by
  intro rows
  induction rows with
  | nil => intro i0 s k; simp [uploadVerticesGo]
  | cons v rest ih =>
    intro i0 s k
    unfold uploadVerticesGo
    by_cases hv : v ∈ s
    · rw [if_pos hv, ih (i0 + 1) s k]
      constructor
      · rintro (hk | ⟨j, hj, hjk, hok⟩)
        · exact Or.inl hk
        · refine Or.inr ⟨j + 1, by simpa using hj, by simpa using hjk, ?_⟩
          rw [show i0 + (j + 1) = i0 + 1 + j from by omega]
          exact hok
      · rintro (hk | ⟨j, hj, hjk, hok⟩)
        · exact Or.inl hk
        · match j with
          | 0 =>
            left
            simp only [List.getD_cons_zero] at hjk
            rw [← hjk]
            exact hv
          | j + 1 =>
            refine Or.inr ⟨j, by simpa using hj, by simpa using hjk, ?_⟩
            rw [show i0 + 1 + j = i0 + (j + 1) from by omega]
            exact hok
    · rw [if_neg hv]
      dsimp only
      by_cases ho : ok i0 = true
      · simp only [ho, if_true]
        rw [ih (i0 + 1) (insert v s) k]
        simp only [Finset.mem_insert]
        constructor
        · rintro ((hk | hk) | ⟨j, hj, hjk, hok⟩)
          · refine Or.inr ⟨0, by simp, by simpa using hk.symm, by simpa using ho⟩
          · exact Or.inl hk
          · refine Or.inr ⟨j + 1, by simpa using hj, by simpa using hjk, ?_⟩
            rw [show i0 + (j + 1) = i0 + 1 + j from by omega]
            exact hok
        · rintro (hk | ⟨j, hj, hjk, hok⟩)
          · exact Or.inl (Or.inr hk)
          · match j with
            | 0 =>
              left
              left
              simp only [List.getD_cons_zero] at hjk
              exact hjk.symm
            | j + 1 =>
              refine Or.inr ⟨j, by simpa using hj, by simpa using hjk, ?_⟩
              rw [show i0 + 1 + j = i0 + (j + 1) from by omega]
              exact hok
      · rw [if_neg ho]
        rw [ih (i0 + 1) s k]
        constructor
        · rintro (hk | ⟨j, hj, hjk, hok⟩)
          · exact Or.inl hk
          · refine Or.inr ⟨j + 1, by simpa using hj, by simpa using hjk, ?_⟩
            rw [show i0 + (j + 1) = i0 + 1 + j from by omega]
            exact hok
        · rintro (hk | ⟨j, hj, hjk, hok⟩)
          · exact Or.inl hk
          · match j with
            | 0 =>
              rw [show i0 + 0 = i0 from by omega] at hok
              exact absurd hok ho
            | j + 1 =>
              refine Or.inr ⟨j, by simpa using hj, by simpa using hjk, ?_⟩
              rw [show i0 + 1 + j = i0 + (j + 1) from by omega]
              exact hok

/-- If every row's key is already present, the loop makes no remote call at all
and leaves the set untouched. -/
theorem uploadVerticesGo_skip (ok : ℕ → Bool) :
    ∀ (rows : List String) (i0 : ℕ) (s : Finset String),
      (∀ v ∈ rows, v ∈ s) → uploadVerticesGo ok i0 rows s = (s, 0) := by
  intro rows
  induction rows with
  | nil => intro i0 s _; rfl
  | cons v rest ih =>
    intro i0 s h
    unfold uploadVerticesGo
    rw [if_pos (h v (List.mem_cons_self v rest))]
    exact ih (i0 + 1) s fun w hw => h w (List.mem_cons_of_mem v hw)

/-- C7.  All-or-nothing per batch in `gremlin_v3.upload_vertices`: a vertex id is
in the Dedup Index after the run iff it was already there before or some row
carries that id and the corresponding remote mutation completed successfully —
so when a call fails fatally (`ok j = false`), none of that batch's keys is
added to the index. -/
theorem c7_all_or_nothing (ok : ℕ → Bool) (rows : List String) (s0 : Finset String)
    (k : String) :
    k ∈ (upload_vertices ok rows s0).1
    ↔ k ∈ s0 ∨ ∃ j, j < rows.length ∧ rows.getD j "" = k ∧ ok j = true := by
  have h := uploadVerticesGo_mem ok rows 0 s0 k
  simpa using h

/-- C8.  Upload idempotence: after a first `upload_vertices` run in which every
issued mutation succeeded, a second run over the same rows, seeded with the
Dedup Index the first run produced, issues zero remote calls and leaves the
index unchanged — every item whose key is already in the index is skipped
without any remote call. -/
theorem c8_upload_idempotent (ok1 ok2 : ℕ → Bool) (rows : List String) (s0 : Finset String)
    (h : ∀ i, ok1 i = true) :
    upload_vertices ok2 rows (upload_vertices ok1 rows s0).1
      = ((upload_vertices ok1 rows s0).1, 0) := by
  apply uploadVerticesGo_skip
  intro v hv
  obtain ⟨j, hj, hvj⟩ := List.mem_iff_getElem.mp hv
  rw [c7_all_or_nothing]
  exact Or.inr ⟨j, hj, by rw [List.getD_eq_getElem rows "" hj]; exact hvj, h j⟩

/-- Witness for C8: two rows, all mutations succeeding on the first run; the
second run issues zero calls. -/
theorem c8_upload_idempotent_witness :
    upload_vertices (fun _ => true) ["a", "b"]
        ((upload_vertices (fun _ => true) ["a", "b"] (∅ : Finset String)).1)
      = ((upload_vertices (fun _ => true) ["a", "b"] (∅ : Finset String)).1, 0) :=
  c8_upload_idempotent (fun _ => true) (fun _ => true) ["a", "b"] ∅ fun _ => rfl

end GraphSync
